import Mathlib

/-!
Verification of the delayed event scheduling and dispatch engine of the
shipay backend.  The definitions below are a shallow embedding of the
Python sources:

  app/services/scheduler.py     (SchedulerService: schedule_event, get_event,
                                 update_event_status, get_pending_events,
                                 remove_completed_events)
  app/services/video_render.py  (VideoRenderService._process_due_events)
  app/models/schemas.py         (EventStatus, ScheduleEventRequest validator)

Redis is modelled as the pair of a hash store (event id to event record,
the keys scheduler:job:<id>) and a sorted set (event id to score, the key
scheduler:queue).  Timestamps are natural numbers (seconds).  The payload
(content) and metadata dictionaries are uninterpreted by the engine and are
modelled as strings.
-/

/-- The EventStatus enum of app/models/schemas.py. -/
inductive EventStatus where
  | pending
  | scheduled
  | processing
  | completed
  | failed
deriving DecidableEq, Repr

/-- The event record stored by SchedulerService.schedule_event as a redis
hash under the key scheduler:job:<event-id>. -/
structure EventRecord where
  event_id : String
  event_type : String
  content : String
  scheduled_time : Nat
  status : EventStatus
  metadata : String
  created_at : Nat
  updated_at : Nat
deriving DecidableEq, Repr

/-- The body of a ScheduleEventRequest (app/models/schemas.py). -/
structure ScheduleEventRequest where
  event_type : String
  content : String
  scheduled_time : Nat
  metadata : String
deriving DecidableEq, Repr

/-- The body of a ScheduleEventResponse (app/models/schemas.py). -/
structure ScheduleEventResponse where
  event_id : String
  status : EventStatus
  scheduled_time : Nat
deriving DecidableEq, Repr

/-- The redis state used by SchedulerService: the hash store of event
records and the scheduler:queue sorted set (member to score). -/
structure RedisState where
  store : List (String × EventRecord)
  queue : List (String × Nat)
deriving DecidableEq, Repr

/-- Lookup in an association list keyed by event id (redis HGETALL of
scheduler:job:<id>; the empty hash reads as none). -/
def hlookup (store : List (String × EventRecord)) (id : String) : Option EventRecord :=
  match store with
  | [] => none
  | (k, r) :: rest => if k = id then some r else hlookup rest id

/-- Redis HSET of a full record mapping: the hash under the key is replaced
by the given record (every field of the record is in the mapping). -/
def hinsert (store : List (String × EventRecord)) (id : String) (r : EventRecord) :
    List (String × EventRecord) :=
  (id, r) :: store.filter (fun p => p.1 ≠ id)

/-- Redis ZADD on the scheduler:queue sorted set: the score of the member is
set, overwriting a previous score. -/
def zadd (queue : List (String × Nat)) (id : String) (score : Nat) : List (String × Nat) :=
  (id, score) :: queue.filter (fun p => p.1 ≠ id)

/-- SchedulerService.schedule_event: build the event record with status
SCHEDULED, HSET it into the store, ZADD the id into the queue with the
scheduled time as score, and return the response.  The event id is the
fresh uuid4 drawn by the code and the parameter now stands for
datetime.utcnow(). -/
def schedule_event (st : RedisState) (req : ScheduleEventRequest) (event_id : String)
    (now : Nat) : RedisState × ScheduleEventResponse :=
  let record : EventRecord :=
    { event_id := event_id
      event_type := req.event_type
      content := req.content
      scheduled_time := req.scheduled_time
      status := EventStatus.scheduled
      metadata := req.metadata
      created_at := now
      updated_at := now }
  ({ store := hinsert st.store event_id record
     queue := zadd st.queue event_id req.scheduled_time },
   { event_id := event_id
     status := EventStatus.scheduled
     scheduled_time := req.scheduled_time })

/-- SchedulerService.get_event: HGETALL of scheduler:job:<id>, none when the
hash is empty. -/
def get_event (st : RedisState) (event_id : String) : Option EventRecord :=
  hlookup st.store event_id

/-- SchedulerService.update_event_status: if the key exists, HSET the two
fields status and updated_at and return true; otherwise return false.  The
queue is not touched. -/
def update_event_status (st : RedisState) (event_id : String) (status : EventStatus)
    (now : Nat) : RedisState × Bool :=
  match hlookup st.store event_id with
  | none => (st, false)
  | some r =>
    ({ store := hinsert st.store event_id { r with status := status, updated_at := now }
       queue := st.queue },
     true)

/-- The validator ScheduleEventRequest.validate_scheduled_time of
app/models/schemas.py: a scheduled time at or before now raises a
ValueError, so the request never reaches the service. -/
def validate_scheduled_time (v : Nat) (now : Nat) : Except String Nat :=
  if v ≤ now then Except.error "A data agendada deve ser futura" else Except.ok v

/-- The POST /scheduler/events pipeline: pydantic validation of the request
body followed by SchedulerService.schedule_event.  A validation error is
returned before the service runs, so the state is untouched on error. -/
def schedule_event_endpoint (st : RedisState) (req : ScheduleEventRequest)
    (event_id : String) (now : Nat) :
    Except String (RedisState × ScheduleEventResponse) :=
  match validate_scheduled_time req.scheduled_time now with
  | Except.error e => Except.error e
  | Except.ok _ => Except.ok (schedule_event st req event_id now)

/-- The redis state after the POST /scheduler/events pipeline: unchanged when
validation rejects the request. -/
def schedule_endpoint_state (st : RedisState) (req : ScheduleEventRequest)
    (event_id : String) (now : Nat) : RedisState :=
  match schedule_event_endpoint st req event_id now with
  | Except.error _ => st
  | Except.ok (st2, _) => st2

/-- SchedulerService.remove_completed_events: ZREM every listed id from the
queue and DELETE every listed key from the store.  ZREM and DELETE of an
absent member or key are no-ops in redis. -/
def remove_completed_events (st : RedisState) (event_ids : List String) : RedisState :=
  { store := st.store.filter (fun p => p.1 ∉ event_ids)
    queue := st.queue.filter (fun p => p.1 ∉ event_ids) }

/-- The order in which redis ZRANGEBYSCORE returns the members of a sorted
set: ascending by score, ties broken by the byte-wise lexicographic order
of the member strings, modelled on the char data of the ids. -/
def zle (a b : String × Nat) : Prop :=
  a.2 < b.2 ∨
    (a.2 = b.2 ∧ (a.1.data = b.1.data ∨ List.Lex (· < ·) a.1.data b.1.data))

instance : DecidableRel zle := fun a b => by
  unfold zle; infer_instance

instance : IsTotal (String × Nat) zle := by
  constructor
  intro a b
  rcases Nat.lt_trichotomy a.2 b.2 with h | h | h
  · exact Or.inl (Or.inl h)
  · rcases trichotomous_of
        (List.Lex (· < ·) : List Char → List Char → Prop) a.1.data b.1.data with
      h2 | h2 | h2
    · exact Or.inl (Or.inr ⟨h, Or.inr h2⟩)
    · exact Or.inl (Or.inr ⟨h, Or.inl h2⟩)
    · exact Or.inr (Or.inr ⟨h.symm, Or.inr h2⟩)
  · exact Or.inr (Or.inl h)

instance : IsTrans (String × Nat) zle := by
  constructor
  intro a b c hab hbc
  rcases hab with h1 | ⟨h1, t1⟩
  · rcases hbc with h2 | ⟨h2, -⟩
    · exact Or.inl (h1.trans h2)
    · exact Or.inl (h2 ▸ h1)
  · rcases hbc with h2 | ⟨h2, t2⟩
    · exact Or.inl (h1 ▸ h2)
    · refine Or.inr ⟨h1.trans h2, ?_⟩
      rcases t1 with e1 | l1
      · rcases t2 with e2 | l2
        · exact Or.inl (e1.trans e2)
        · exact Or.inr (e1 ▸ l2)
      · rcases t2 with e2 | l2
        · exact Or.inr (e2 ▸ l1)
        · exact Or.inr (IsTrans.trans _ _ _ l1 l2)

/-- Redis ZRANGEBYSCORE scheduler:queue 0 maxScore LIMIT 0 num: the members
whose score lies in the range, sorted ascending by score with ties in
lexicographic member order, truncated to the first num members.  Scores
are natural numbers so the lower bound 0 excludes nothing. -/
def zrangebyscore (queue : List (String × Nat)) (maxScore : Nat) (num : Nat) :
    List String :=
  ((queue.filter (fun p => p.2 ≤ maxScore)).insertionSort zle).map Prod.fst |>.take num

/-- SchedulerService.get_pending_events: ZRANGEBYSCORE of the queue up to
now with LIMIT 0 limit, then HGETALL of each returned id, keeping only the
non-empty hashes. -/
def get_pending_events (st : RedisState) (now : Nat) (limit : Nat) : List EventRecord :=
  (zrangebyscore st.queue now limit).filterMap (fun id => hlookup st.store id)

/-!
The model of VideoRenderService._process_due_events
(app/services/video_render.py).  The per-event body reads the event from
redis, and when the event is due (scheduled_time at or before now) and its
status reads pending, writes status processing, publishes to kafka, and
writes status completed (with processed_at set); when anything in the try
block raises (a publish failure), the except branch writes status failed.
-/

/-- The RenderEvent fields used by VideoRenderService (app/models/schemas.py
plus the processed_at attribute written by video_render.py). -/
structure RenderEvt where
  event_id : String
  content : String
  scheduled_time : Nat
  status : EventStatus
  processed_at : Option Nat
deriving DecidableEq, Repr

/-- One iteration of the per-event body of
VideoRenderService._process_due_events, with the publish outcome as the
parameter publishOk.  Returns the final event together with the list of
statuses written to redis, in order. -/
def process_due_event (e : RenderEvt) (now : Nat) (publishOk : Bool) :
    RenderEvt × List EventStatus :=
  if e.scheduled_time ≤ now ∧ e.status = EventStatus.pending then
    if publishOk then
      ({ e with status := EventStatus.completed, processed_at := some now },
       [EventStatus.processing, EventStatus.completed])
    else
      ({ e with status := EventStatus.failed },
       [EventStatus.processing, EventStatus.failed])
  else (e, [])

/-!
The claim interleaving model: two workers concurrently running the check
phase (read the event, test scheduled_time at or before now and status
pending) and the set phase (write status processing and proceed to
publish) of _process_due_events on the same event.  The read and the write
are separate redis commands with no transaction, watch or lock around
them, so steps of the two workers interleave freely.
-/

/-- Local state of one worker between its read of the event and its
conditional write: the status it observed, and whether it obtained the
event (passed the pending check and wrote processing). -/
structure WorkerView where
  observed : Option EventStatus
  claimed : Bool
deriving DecidableEq, Repr

/-- Shared state of the race: the stored status of the single event, its
scheduled time, the current time, and the two worker views. -/
structure RaceState where
  status : EventStatus
  scheduled_time : Nat
  now : Nat
  w0 : WorkerView
  w1 : WorkerView
deriving DecidableEq, Repr

/-- The interleavable steps: each worker reads the event, or performs its
check-then-write using the value it read. -/
inductive RaceStep where
  | read0
  | read1
  | claim0
  | claim1
deriving DecidableEq, Repr

/-- One step of the race.  A read copies the stored status into the worker
view; a claim tests the observed value exactly as the code does
(scheduled_time at or before now and status pending) and on success writes
processing to the store and marks the worker as owning the event. -/
def raceStep (s : RaceState) (a : RaceStep) : RaceState :=
  match a with
  | RaceStep.read0 => { s with w0 := { s.w0 with observed := some s.status } }
  | RaceStep.read1 => { s with w1 := { s.w1 with observed := some s.status } }
  | RaceStep.claim0 =>
    match s.w0.observed with
    | some st =>
      if s.scheduled_time ≤ s.now ∧ st = EventStatus.pending then
        { s with status := EventStatus.processing, w0 := { s.w0 with claimed := true } }
      else s
    | none => s
  | RaceStep.claim1 =>
    match s.w1.observed with
    | some st =>
      if s.scheduled_time ≤ s.now ∧ st = EventStatus.pending then
        { s with status := EventStatus.processing, w1 := { s.w1 with claimed := true } }
      else s
    | none => s

/-- Run a schedule of race steps from an initial state. -/
def raceRun (s : RaceState) (steps : List RaceStep) : RaceState :=
  steps.foldl raceStep s

/-- Initial race state for a due pending event: stored status pending, both
workers yet to read. -/
def raceInit (sched now : Nat) : RaceState :=
  { status := EventStatus.pending
    scheduled_time := sched
    now := now
    w0 := { observed := none, claimed := false }
    w1 := { observed := none, claimed := false } }

/-!  Helper lemmas about the association list operations.  -/

theorem hlookup_hinsert_self (store : List (String × EventRecord)) (id : String)
    (r : EventRecord) : hlookup (hinsert store id r) id = some r := by
  simp [hinsert, hlookup]

theorem hlookup_filterKey (store : List (String × EventRecord)) (p : String → Bool)
    (id : String) :
    hlookup (store.filter (fun q => p q.1)) id =
      if p id then hlookup store id else none := by
  induction store with
  | nil => cases h : p id <;> simp [hlookup, h]
  | cons a rest ih =>
    by_cases hk : a.1 = id
    · subst hk
      cases h : p a.1 <;> simp [List.filter_cons, h, hlookup, ih]
    · cases h : p a.1 <;> simp [List.filter_cons, h, hlookup, hk, ih]

theorem hlookup_filter_ne_self (store : List (String × EventRecord)) (id : String) :
    hlookup (store.filter (fun p => p.1 ≠ id)) id = none := by
  have h := hlookup_filterKey store (fun x => decide (x ≠ id)) id
  simpa using h

theorem hlookup_filter_ne (store : List (String × EventRecord)) (id id' : String)
    (h : id' ≠ id) :
    hlookup (store.filter (fun p => p.1 ≠ id)) id' = hlookup store id' := by
  have h2 := hlookup_filterKey store (fun x => decide (x ≠ id)) id'
  simpa [h] using h2

theorem hlookup_hinsert_ne (store : List (String × EventRecord)) (id id' : String)
    (r : EventRecord) (h : id' ≠ id) :
    hlookup (hinsert store id r) id' = hlookup store id' := by
  have hne : id ≠ id' := fun hc => h hc.symm
  show (if id = id' then some r else hlookup (store.filter (fun p => p.1 ≠ id)) id') =
    hlookup store id'
  rw [if_neg hne]
  exact hlookup_filter_ne store id id' h

theorem hlookup_filter_mem (store : List (String × EventRecord)) (ids : List String)
    (id : String) (h : id ∈ ids) :
    hlookup (store.filter (fun p => p.1 ∉ ids)) id = none := by
  have h2 := hlookup_filterKey store (fun x => decide (x ∉ ids)) id
  simpa [h] using h2

theorem hlookup_filter_not_mem (store : List (String × EventRecord)) (ids : List String)
    (id : String) (h : id ∉ ids) :
    hlookup (store.filter (fun p => p.1 ∉ ids)) id = hlookup store id := by
  have h2 := hlookup_filterKey store (fun x => decide (x ∉ ids)) id
  simpa [h] using h2

theorem mem_zadd (queue : List (String × Nat)) (id : String) (score : Nat)
    (x : String × Nat) :
    x ∈ zadd queue id score ↔ x = (id, score) ∨ (x ∈ queue ∧ x.1 ≠ id) := by
  simp [zadd, List.mem_filter]

/-!  Concrete states used by counterexamples and witnesses.  -/

/-- The empty redis state. -/
def st0 : RedisState := { store := [], queue := [] }

/-- A valid scheduling request (scheduled time 100). -/
def exReq : ScheduleEventRequest :=
  { event_type := "video.render", content := "c1", scheduled_time := 100, metadata := "m1" }

/-- A second valid scheduling request (scheduled time 200). -/
def exReqB : ScheduleEventRequest :=
  { event_type := "mail.send", content := "c2", scheduled_time := 200, metadata := "m2" }

/-- A request whose scheduled time 5 lies in the past relative to now = 10. -/
def exPastReq : ScheduleEventRequest :=
  { event_type := "video.render", content := "c1", scheduled_time := 5, metadata := "m1" }

/-- The record stored for request exReq under id A at time 10. -/
def recA : EventRecord :=
  { event_id := "A", event_type := "video.render", content := "c1", scheduled_time := 100,
    status := EventStatus.scheduled, metadata := "m1", created_at := 10, updated_at := 10 }

/-- State after scheduling exReq under the fresh id A at time 10. -/
def stA : RedisState := (schedule_event st0 exReq "A" 10).1

/-- State after additionally scheduling exReqB under the fresh id B at time 20. -/
def stAB : RedisState := (schedule_event stA exReqB "B" 20).1

/-- State after the administrative status update of A to COMPLETED at time 60. -/
def stACompleted : RedisState := (update_event_status stA "A" EventStatus.completed 60).1

/-- A queue holding a dangling id ghost (no stored record) ahead of A. -/
def stDangling : RedisState :=
  { store := [("A", recA)], queue := [("ghost", 1), ("A", 2)] }

/-- C5: a ScheduleEvent request whose scheduled_at is at or before now is
rejected synchronously by the pydantic validator with the ValueError
message, and the redis state is untouched: the event is neither stored nor
inserted in the queue. -/
theorem C5_reject_past_schedule (st : RedisState) (req : ScheduleEventRequest)
    (event_id : String) (now : Nat) (h : req.scheduled_time ≤ now) :
    schedule_event_endpoint st req event_id now =
      Except.error "A data agendada deve ser futura" ∧
    schedule_endpoint_state st req event_id now = st := by
  constructor <;>
    simp [schedule_event_endpoint, schedule_endpoint_state, validate_scheduled_time, h]

/-- Witness for C5 at the concrete past request. -/
theorem C5_reject_past_schedule_witness :
    schedule_event_endpoint st0 exPastReq "A" 10 =
      Except.error "A data agendada deve ser futura" ∧
    schedule_endpoint_state st0 exPastReq "A" 10 = st0 :=
  C5_reject_past_schedule st0 exPastReq "A" 10 (by decide)

/-- C6: a valid ScheduleEvent call (scheduled time strictly in the future)
succeeds, and the id in the returned response is immediately retrievable
via get_event with status SCHEDULED and the requested scheduled time. -/
theorem C6_schedule_then_get (st : RedisState) (req : ScheduleEventRequest)
    (event_id : String) (now : Nat) (h : now < req.scheduled_time) :
    ∃ st2 resp,
      schedule_event_endpoint st req event_id now = Except.ok (st2, resp) ∧
      resp.status = EventStatus.scheduled ∧
      resp.scheduled_time = req.scheduled_time ∧
      ∃ r, get_event st2 resp.event_id = some r ∧
        r.status = EventStatus.scheduled ∧
        r.scheduled_time = req.scheduled_time := by
  have hnot : ¬ req.scheduled_time ≤ now := Nat.not_le.mpr h
  refine ⟨(schedule_event st req event_id now).1, (schedule_event st req event_id now).2,
    ?_, rfl, rfl, ?_⟩
  · simp [schedule_event_endpoint, validate_scheduled_time, hnot]
  · exact ⟨_, hlookup_hinsert_self st.store event_id _, rfl, rfl⟩

/-- Witness for C6 at the concrete request exReq. -/
theorem C6_schedule_then_get_witness :
    ∃ st2 resp,
      schedule_event_endpoint st0 exReq "A" 10 = Except.ok (st2, resp) ∧
      resp.status = EventStatus.scheduled ∧
      resp.scheduled_time = exReq.scheduled_time ∧
      ∃ r, get_event st2 resp.event_id = some r ∧
        r.status = EventStatus.scheduled ∧
        r.scheduled_time = exReq.scheduled_time :=
  C6_schedule_then_get st0 exReq "A" 10 (by decide)

/-- C8: remove_completed_events is an idempotent bulk delete.  Applying it
twice equals applying it once, every listed id afterwards reads as absent
(get_event returns none), and unlisted ids are untouched; the operation is
a total function, so unknown ids cannot raise an error. -/
theorem C8_remove_idempotent_bulk (st : RedisState) (ids : List String) :
    remove_completed_events (remove_completed_events st ids) ids =
      remove_completed_events st ids ∧
    (∀ id, id ∈ ids → get_event (remove_completed_events st ids) id = none) ∧
    (∀ id, id ∉ ids → get_event (remove_completed_events st ids) id = get_event st id) := by
  refine ⟨?_, ?_, ?_⟩
  · unfold remove_completed_events
    dsimp only
    congr 1
    · exact List.filter_eq_self.mpr (fun a ha => (List.mem_filter.mp ha).2)
    · exact List.filter_eq_self.mpr (fun a ha => (List.mem_filter.mp ha).2)
  · intro id hid
    exact hlookup_filter_mem st.store ids id hid
  · intro id hid
    exact hlookup_filter_not_mem st.store ids id hid

/-- Witness for C8: removing A, B and an unknown id from the two-event state
succeeds and leaves all three unretrievable. -/
theorem C8_remove_idempotent_bulk_witness :
    get_event (remove_completed_events stAB ["A", "B", "unknown-id"]) "A" = none ∧
    get_event (remove_completed_events stAB ["A", "B", "unknown-id"]) "B" = none ∧
    get_event (remove_completed_events stAB ["A", "B", "unknown-id"]) "unknown-id" = none :=
  ⟨(C8_remove_idempotent_bulk stAB ["A", "B", "unknown-id"]).2.1 "A" (by decide),
   (C8_remove_idempotent_bulk stAB ["A", "B", "unknown-id"]).2.1 "B" (by decide),
   (C8_remove_idempotent_bulk stAB ["A", "B", "unknown-id"]).2.1 "unknown-id" (by decide)⟩

/-- C9: a successful update_event_status write returns true, sets the two
hash fields status and updated_at, and leaves every other field of the
record, every other stored record, and the whole queue unchanged. -/
theorem C9_update_status_frame (st : RedisState) (event_id : String)
    (status : EventStatus) (now : Nat) (r : EventRecord)
    (h : get_event st event_id = some r) :
    (update_event_status st event_id status now).2 = true ∧
    (∃ r2, get_event (update_event_status st event_id status now).1 event_id = some r2 ∧
      r2.status = status ∧ r2.updated_at = now ∧
      r2.event_id = r.event_id ∧ r2.event_type = r.event_type ∧
      r2.content = r.content ∧ r2.metadata = r.metadata ∧
      r2.scheduled_time = r.scheduled_time ∧ r2.created_at = r.created_at) ∧
    (∀ other, other ≠ event_id →
      get_event (update_event_status st event_id status now).1 other =
        get_event st other) ∧
    (update_event_status st event_id status now).1.queue = st.queue := by
  have h2 : hlookup st.store event_id = some r := h
  simp only [update_event_status, get_event, h2]
  refine ⟨trivial,
    ⟨_, hlookup_hinsert_self st.store event_id _, rfl, rfl, rfl, rfl, rfl, rfl, rfl, rfl⟩,
    ?_, trivial⟩
  intro other hne
  exact hlookup_hinsert_ne st.store event_id other _ hne

/-- Witness for C9 at the concrete state stA and record recA. -/
theorem C9_update_status_frame_witness :
    (update_event_status stA "A" EventStatus.completed 60).2 = true ∧
    (update_event_status stA "A" EventStatus.completed 60).1.queue = stA.queue :=
  ⟨(C9_update_status_frame stA "A" EventStatus.completed 60 recA (by decide)).1,
   (C9_update_status_frame stA "A" EventStatus.completed 60 recA (by decide)).2.2.2⟩

/-- C4 counterexample: the event A has the terminal status COMPLETED in
stACompleted, yet update_event_status of A to SCHEDULED succeeds and the
stored status changes back to SCHEDULED, so the state machine does leave a
terminal state. -/
theorem C4_counterexample_terminal_escape :
    (get_event stACompleted "A").map EventRecord.status = some EventStatus.completed ∧
    (update_event_status stACompleted "A" EventStatus.scheduled 70).2 = true ∧
    (get_event (update_event_status stACompleted "A" EventStatus.scheduled 70).1 "A").map
      EventRecord.status = some EventStatus.scheduled := by
  decide

/-- C4 amended: update_event_status checks only that the event exists.  It
overwrites the status of any existing event with the requested value and
reports success, with no guard on the current status: events in COMPLETED
or FAILED are not protected. -/
theorem C4_amended_no_terminal_guard (st : RedisState) (event_id : String)
    (s : EventStatus) (now : Nat) (r : EventRecord)
    (h : get_event st event_id = some r)
    (_hterm : r.status = EventStatus.completed ∨ r.status = EventStatus.failed) :
    (update_event_status st event_id s now).2 = true ∧
    (get_event (update_event_status st event_id s now).1 event_id).map
      EventRecord.status = some s := by
  have h2 : hlookup st.store event_id = some r := h
  simp only [update_event_status, get_event, h2]
  refine ⟨trivial, ?_⟩
  rw [hlookup_hinsert_self]
  rfl

/-- Witness for the amended C4 at the concrete completed event. -/
theorem C4_amended_no_terminal_guard_witness :
    (update_event_status stACompleted "A" EventStatus.scheduled 70).2 = true ∧
    (get_event (update_event_status stACompleted "A" EventStatus.scheduled 70).1 "A").map
      EventRecord.status = some EventStatus.scheduled :=
  C4_amended_no_terminal_guard stACompleted "A" EventStatus.scheduled 70
    { recA with status := EventStatus.completed, updated_at := 60 }
    (by decide) (Or.inl (by decide))

/-- Membership of an event id in the scheduler:queue sorted set. -/
def inQueue (st : RedisState) (id : String) : Prop :=
  ∃ s, (id, s) ∈ st.queue

/-- The Due-Time Index invariant claimed by the spec: an event id is a
member of the queue exactly when its stored record has status SCHEDULED. -/
def DueIndexInv (st : RedisState) : Prop :=
  ∀ id, inQueue st id ↔
    ∃ r, get_event st id = some r ∧ r.status = EventStatus.scheduled

/-- C2 counterexample: the invariant holds after scheduling A, but the
status update of A to COMPLETED succeeds without touching the queue, so A
stays a queue member while its status is no longer SCHEDULED: the
operation does not preserve the invariant. -/
theorem C2_counterexample_update_breaks_invariant :
    DueIndexInv stA ∧
    (update_event_status stA "A" EventStatus.completed 60).2 = true ∧
    ¬ DueIndexInv stACompleted := by
  refine ⟨?_, by decide, ?_⟩
  · intro id
    by_cases hid : id = "A"
    · subst hid
      constructor
      · intro _
        exact ⟨recA, by decide, by decide⟩
      · intro _
        exact ⟨100, by decide⟩
    · constructor
      · rintro ⟨s, hs⟩
        have hmem : (id, s) ∈ ([("A", 100)] : List (String × Nat)) := hs
        simp at hmem
        exact absurd hmem.1 hid
      · rintro ⟨r, hr, -⟩
        have hnone : get_event stA id = none := by
          show hlookup (hinsert st0.store "A" recA) id = none
          rw [hlookup_hinsert_ne st0.store "A" id recA hid]
          rfl
        rw [hnone] at hr
        exact Option.noConfusion hr
  · intro h
    obtain ⟨r, hr, hstat⟩ := (h "A").mp ⟨100, by decide⟩
    have h2 : (get_event stACompleted "A").map EventRecord.status =
        some EventStatus.completed := by decide
    rw [hr] at h2
    simp [hstat] at h2

/-- C2 amended: schedule_event establishes or preserves the Due-Time Index
invariant and remove_completed_events preserves it; update_event_status is
the operation that does not (see the counterexample), because it never
touches the queue. -/
theorem C2_amended_schedule_remove_preserve :
    (∀ st req event_id now, DueIndexInv st →
      DueIndexInv (schedule_event st req event_id now).1) ∧
    (∀ st ids, DueIndexInv st → DueIndexInv (remove_completed_events st ids)) := by
  constructor
  · intro st req eid now hinv id
    by_cases hid : id = eid
    · subst hid
      constructor
      · intro _
        exact ⟨_, hlookup_hinsert_self st.store id _, rfl⟩
      · intro _
        exact ⟨req.scheduled_time,
          (mem_zadd st.queue id req.scheduled_time (id, req.scheduled_time)).mpr
            (Or.inl rfl)⟩
    · have hq : inQueue (schedule_event st req eid now).1 id ↔ inQueue st id := by
        constructor
        · rintro ⟨s, hs⟩
          rcases (mem_zadd st.queue eid req.scheduled_time (id, s)).mp hs with h1 | h1
          · exact absurd (congrArg Prod.fst h1) hid
          · exact ⟨s, h1.1⟩
        · rintro ⟨s, hs⟩
          exact ⟨s, (mem_zadd st.queue eid req.scheduled_time (id, s)).mpr
            (Or.inr ⟨hs, hid⟩)⟩
      have hg : get_event (schedule_event st req eid now).1 id = get_event st id :=
        hlookup_hinsert_ne st.store eid id _ hid
      rw [show inQueue (schedule_event st req eid now).1 id ↔ inQueue st id from hq, hg]
      exact hinv id
  · intro st ids hinv id
    by_cases hid : id ∈ ids
    · constructor
      · rintro ⟨s, hs⟩
        have hmem := List.mem_filter.mp (hs : (id, s) ∈ st.queue.filter _)
        simp at hmem
        exact absurd hid hmem.2
      · rintro ⟨r, hr, -⟩
        rw [show get_event (remove_completed_events st ids) id = none from
          hlookup_filter_mem st.store ids id hid] at hr
        exact Option.noConfusion hr
    · have hq : inQueue (remove_completed_events st ids) id ↔ inQueue st id := by
        constructor
        · rintro ⟨s, hs⟩
          exact ⟨s, (List.mem_filter.mp (hs : (id, s) ∈ st.queue.filter _)).1⟩
        · rintro ⟨s, hs⟩
          exact ⟨s, List.mem_filter.mpr ⟨hs, by simpa using hid⟩⟩
      have hg : get_event (remove_completed_events st ids) id = get_event st id :=
        hlookup_filter_not_mem st.store ids id hid
      rw [show inQueue (remove_completed_events st ids) id ↔ inQueue st id from hq, hg]
      exact hinv id

/-- Witness for the amended C2: scheduling into the empty state yields a
state satisfying the invariant, and removal preserves it there. -/
theorem C2_amended_schedule_remove_preserve_witness :
    DueIndexInv stA ∧ DueIndexInv (remove_completed_events stA ["A"]) := by
  have hbase : DueIndexInv st0 := by
    intro id
    constructor
    · rintro ⟨s, hs⟩
      exact absurd hs (List.not_mem_nil (id, s))
    · rintro ⟨r, hr, -⟩
      exact Option.noConfusion hr
  have h1 : DueIndexInv stA :=
    C2_amended_schedule_remove_preserve.1 st0 exReq "A" 10 hbase
  exact ⟨h1, C2_amended_schedule_remove_preserve.2 stA ["A"] h1⟩

/-- C1: the check-and-set of _process_due_events is a plain redis GET
followed by a conditional SET with no transaction or lock, so the steps of
two workers interleave.  In the interleaving where both workers read
before either writes, both observe PENDING on the same due event and both
obtain it (and go on to publish); the serialized interleaving, where the
second worker reads only after the first has written PROCESSING, lets only
the first worker obtain it. -/
theorem C1_nonatomic_claim_race :
    (raceRun (raceInit 5 10)
      [RaceStep.read0, RaceStep.read1, RaceStep.claim0, RaceStep.claim1]).w0.claimed = true ∧
    (raceRun (raceInit 5 10)
      [RaceStep.read0, RaceStep.read1, RaceStep.claim0, RaceStep.claim1]).w1.claimed = true ∧
    (raceRun (raceInit 5 10)
      [RaceStep.read0, RaceStep.claim0, RaceStep.read1, RaceStep.claim1]).w0.claimed = true ∧
    (raceRun (raceInit 5 10)
      [RaceStep.read0, RaceStep.claim0, RaceStep.read1, RaceStep.claim1]).w1.claimed = false := by
  decide

/-- A due pending render event used as the failing input for C3. -/
def exRenderEvt : RenderEvt :=
  { event_id := "E", content := "c1", scheduled_time := 5,
    status := EventStatus.pending, processed_at := none }

/-- C3 counterexample: on the very first failed publish attempt of a due
pending event, _process_due_events writes status FAILED immediately; the
event is not returned to SCHEDULED, no attempt counter exists and no
backoff is applied, so FAILED is reached before any retry budget could be
exhausted. -/
theorem C3_counterexample_first_failure_is_failed :
    (process_due_event exRenderEvt 10 false).1.status = EventStatus.failed ∧
    (process_due_event exRenderEvt 10 false).1.status ≠ EventStatus.scheduled ∧
    (process_due_event exRenderEvt 10 false).2 =
      [EventStatus.processing, EventStatus.failed] := by
  decide

/-- C3 amended: any publish failure while processing a due pending event
immediately moves it to FAILED.  The code keeps no attempt count, has no
max_attempts budget and never pushes the due time forward: the statuses
written are exactly PROCESSING then FAILED. -/
theorem C3_amended_fail_immediately (e : RenderEvt) (now : Nat)
    (h1 : e.scheduled_time ≤ now) (h2 : e.status = EventStatus.pending) :
    (process_due_event e now false).1.status = EventStatus.failed ∧
    (process_due_event e now false).2 =
      [EventStatus.processing, EventStatus.failed] := by
  simp [process_due_event, h1, h2]

/-- Witness for the amended C3 at the concrete due pending event. -/
theorem C3_amended_fail_immediately_witness :
    (process_due_event exRenderEvt 10 false).1.status = EventStatus.failed ∧
    (process_due_event exRenderEvt 10 false).2 =
      [EventStatus.processing, EventStatus.failed] :=
  C3_amended_fail_immediately exRenderEvt 10 (by decide) (by decide)

/-- The queue after ZADD of b with score 5 followed by ZADD of a with the
same score 5: insertion order is b before a. -/
def exTieQueue : List (String × Nat) := zadd (zadd [] "b" 5) "a" 5

/-- C7 counterexample: on a tie in scheduled_at, redis ZRANGEBYSCORE orders
members lexicographically, not by insertion order.  The ids b then a were
inserted in that order with equal score, yet the due query returns a
before b, not the insertion order b before a. -/
theorem C7_counterexample_ties_lexicographic :
    zrangebyscore exTieQueue 10 10 = ["a", "b"] ∧
    (["a", "b"] : List String) ≠ ["b", "a"] := by
  decide

/-- C7 amended: the due query returns at most num ids, drawn from the queue
entries with score at or before maxScore, in ascending score order with
ties broken by the lexicographic order of the ids (the zle order), and it
returns every such entry whenever the due entries fit within num. -/
theorem C7_amended_due_query (queue : List (String × Nat)) (maxScore num : Nat) :
    (zrangebyscore queue maxScore num).length ≤ num ∧
    List.Sorted zle
      (((queue.filter (fun p => p.2 ≤ maxScore)).insertionSort zle).take num) ∧
    zrangebyscore queue maxScore num =
      (((queue.filter (fun p => p.2 ≤ maxScore)).insertionSort zle).take num).map
        Prod.fst ∧
    (∀ id, id ∈ zrangebyscore queue maxScore num →
      ∃ s, (id, s) ∈ queue ∧ s ≤ maxScore) ∧
    (∀ id s, (id, s) ∈ queue → s ≤ maxScore →
      (queue.filter (fun p => p.2 ≤ maxScore)).length ≤ num →
      id ∈ zrangebyscore queue maxScore num) := by
  refine ⟨?_, ?_, ?_, ?_, ?_⟩
  · exact List.length_take_le num _
  · exact List.Pairwise.sublist (List.take_sublist num _)
      (List.sorted_insertionSort zle _)
  · exact (List.map_take Prod.fst _ num).symm
  · intro id hid
    have h1 : id ∈ ((queue.filter (fun p => p.2 ≤ maxScore)).insertionSort zle).map
        Prod.fst :=
      List.mem_of_mem_take hid
    obtain ⟨p, hp, hfst⟩ := List.mem_map.mp h1
    obtain ⟨a, b⟩ := p
    have ha : a = id := hfst
    subst ha
    have h2 : (a, b) ∈ queue.filter (fun p => p.2 ≤ maxScore) :=
      (List.perm_insertionSort zle _).subset hp
    have h3 := List.mem_filter.mp h2
    exact ⟨b, h3.1, by simpa using h3.2⟩
  · intro id s hmem hle hlen
    have hf : (id, s) ∈ queue.filter (fun p => p.2 ≤ maxScore) :=
      List.mem_filter.mpr ⟨hmem, by simpa using hle⟩
    have hsort : (id, s) ∈ (queue.filter (fun p => p.2 ≤ maxScore)).insertionSort zle :=
      (List.perm_insertionSort zle _).symm.subset hf
    have hmap : id ∈ ((queue.filter (fun p => p.2 ≤ maxScore)).insertionSort zle).map
        Prod.fst :=
      List.mem_map.mpr ⟨(id, s), hsort, rfl⟩
    have hlen2 :
        (((queue.filter (fun p => p.2 ≤ maxScore)).insertionSort zle).map
          Prod.fst).length ≤ num := by
      rw [List.length_map,
        (List.perm_insertionSort zle (queue.filter (fun p => p.2 ≤ maxScore))).length_eq]
      exact hlen
    show id ∈ List.take num
      (((queue.filter (fun p => p.2 ≤ maxScore)).insertionSort zle).map Prod.fst)
    rw [List.take_of_length_le hlen2]
    exact hmap

/-- Witness for the amended C7 at the tie queue. -/
theorem C7_amended_due_query_witness :
    (zrangebyscore exTieQueue 10 10).length ≤ 10 ∧
    (∃ s, ("a", s) ∈ exTieQueue ∧ s ≤ 10) ∧
    "b" ∈ zrangebyscore exTieQueue 10 10 :=
  ⟨(C7_amended_due_query exTieQueue 10 10).1,
   (C7_amended_due_query exTieQueue 10 10).2.2.2.1 "a" (by decide),
   (C7_amended_due_query exTieQueue 10 10).2.2.2.2 "b" 5 (by decide) (by decide)
     (by decide)⟩

/-- C10: get_pending_events is total and never fails on a dangling index
entry.  Every record it returns was fetched from the store under one of
the due ids, so ids without a stored body are silently omitted, and the
result length never exceeds the limit. -/
theorem C10_dangling_ids_omitted (st : RedisState) (now limit : Nat) :
    (get_pending_events st now limit).length ≤ limit ∧
    ∀ r, r ∈ get_pending_events st now limit →
      ∃ id, id ∈ zrangebyscore st.queue now limit ∧ hlookup st.store id = some r := by
  constructor
  · calc (get_pending_events st now limit).length
        ≤ (zrangebyscore st.queue now limit).length :=
          List.length_filterMap_le _ _
      _ ≤ limit := List.length_take_le limit _
  · intro r hr
    obtain ⟨id, hid, hsome⟩ := List.mem_filterMap.mp hr
    exact ⟨id, hid, hsome⟩

/-- Witness for C10 at a state whose queue holds the dangling id ghost:
the stored record of A is returned while ghost contributes nothing. -/
theorem C10_dangling_ids_omitted_witness :
    (get_pending_events stDangling 10 5).length ≤ 5 ∧
    ∃ id, id ∈ zrangebyscore stDangling.queue 10 5 ∧
      hlookup stDangling.store id = some recA :=
  ⟨(C10_dangling_ids_omitted stDangling 10 5).1,
   (C10_dangling_ids_omitted stDangling 10 5).2 recA (by decide)⟩

